import Mathlib

/-!
# Verification of the kixx-test-node run orchestrator

Shallow embedding of the run orchestrator of the kixx-test-node repository.
The definitions below are translated from the JavaScript sources:

* `src/unnamed/part_000` — the runner revision built around `getBlockId`,
  `createBlockTracker`, `setBlock`, `isBlockChange`, `reportError`, the
  `error` / `blockStart` / `blockComplete` / `end` handlers and the
  `paths.reduce(loadPath, ...)` bootstrap;
* `src/index.js` — earlier revisions of the same program: the first
  revision's `main` (with its `inBeforeBlock` flag and `reportErrors`),
  and the last revision's `t.on(end)` teardown logic
  (`Promise.all(teardowns.map((teardown) => teardown()))`).

JavaScript values are modelled as follows: strings are `String`; an
optional / nullable field is `Option _`; the `maxErrors` option, which may
be the JavaScript `Infinity`, is `Option Nat` with `none` standing for
`Infinity`; `EOL` is modelled as `"\n"`.  Output written to stdout/stderr
is either ignored (duration lines) or accumulated in the state when a
claim is about it.  `process.exit(code)` is modelled by setting an
absorbing `halted` field: once set, subsequent events are not processed,
which is exactly what process termination does to the event handlers.
-/

namespace KixxTestNode

/-- JavaScript truthiness of a possibly-null string: `null` and the empty
string are falsy, every other string is truthy. -/
def strTruthy : Option String → Bool
  | none => false
  | some s => s != ""

/-- A JavaScript `null` interpolated into a template literal prints as
`"null"`. -/
def jsStrOfNullable : Option String → String
  | none => "null"
  | some s => s

/-- A JavaScript `undefined` interpolated into a template literal prints as
`"undefined"`. -/
def jsStrOfUndefinable : Option String → String
  | none => "undefined"
  | some s => s

/-- A JavaScript number that may be `Infinity` interpolated into a template
literal. -/
def jsStrOfMax : Option Nat → String
  | none => "Infinity"
  | some n => toString n

/-- `getBlockId` from `src/unnamed/part_000` (array branch):
`block.parents.join(' ')` — the parents list joined by a single space. -/
def blockId (parents : List String) : String :=
  String.intercalate " " parents

/-- `getBlockId` from `src/unnamed/part_000` in full: if `parents` is an
array, join it with a single space, otherwise return `null`. -/
def getBlockId (parents : Option (List String)) : Option String :=
  parents.map blockId

/-- An error-like value delivered with an engine `error` event.  `strForm`
is the string form `String(err)` used when JavaScript coerces the error to
a string. -/
structure ErrObj where
  stack : Option String
  test : Option String
  parents : Option (List String)
  strForm : String
deriving DecidableEq

/-- `err.stack ? err.stack.split(EOL) : []` from `reportError` in
`src/unnamed/part_000` (an empty stack string is falsy in JavaScript). -/
def splitStack : Option String → List String
  | none => []
  | some s => if s == "" then [] else s.splitOn "\n"

/-- The truncation step of `reportError` in `src/unnamed/part_000`:
`if (stack.length > maxStack) { stack = stack.slice(0, maxStack); }`. -/
def truncateStack (maxStack : Nat) (lines : List String) : List String :=
  if lines.length > maxStack then lines.take maxStack else lines

/-- The truncated stack-line list computed by `reportError` in
`src/unnamed/part_000` for a given error. -/
def reportErrorStack (maxStack : Nat) (err : ErrObj) : List String :=
  truncateStack maxStack (splitStack err.stack)

/-- The stack text written by `reportError` in `src/unnamed/part_000`:
`stack.join(EOL).trim()`. -/
def renderedStackText (maxStack : Nat) (err : ErrObj) : String :=
  (String.intercalate "\n" (reportErrorStack maxStack err)).trim

/-- The `nameString` label computed by `reportError` in
`src/unnamed/part_000`: `testName` is `` ` ${err.test}` `` when `err.test`
is truthy, and the label falls back to `Unexpected Testing Error` when
neither a truthy test name nor a truthy block id is available. -/
def nameString (err : ErrObj) : String :=
  let testName : String :=
    match err.test with
    | none => ""
    | some t => if t == "" then "" else " " ++ t
  let id := getBlockId err.parents
  if testName != "" && strTruthy id then jsStrOfNullable id ++ " " ++ testName
  else if testName != "" then testName
  else if strTruthy id then jsStrOfNullable id
  else "Unexpected Testing Error"

/-- `reportErrors` from the first revision in `src/index.js`:
`const stack = err.stack && err.stack.split(EOL).slice(0, maxStack).join(EOL).trim();`
then `process.stderr.write(EOL + EOL + (stack || err))` — a missing,
empty, or all-whitespace stack falls back to the string form of the
error. -/
def rev1ReportedText (maxStack : Nat) (err : ErrObj) : String :=
  match err.stack with
  | none => err.strForm
  | some s =>
    if s == "" then err.strForm
    else
      let t := (String.intercalate "\n" ((s.splitOn "\n").take maxStack)).trim
      if t == "" then err.strForm else t

/-- The bail-out decision of the `error` handler in `src/unnamed/part_000`
(and of `createTestRunner` in the last revision of `src/index.js`):
`errorCount >= maxErrors`, evaluated after the counter was incremented for
the error just captured.  `none` models `maxErrors = Infinity`, for which
a finite count is never `>=`. -/
def shouldBailOut (totalCaptured : Nat) (maxErrors : Option Nat) : Bool :=
  match maxErrors with
  | none => false
  | some m => decide (m ≤ totalCaptured)

/-- The per-block mutable tracker record built by `createBlockTracker` in
`src/unnamed/part_000`. -/
structure BlockTracker where
  id : String
  name : String
  type : String
  test : Option String
  beforeStartTime : Option Nat
  afterStartTime : Option Nat
deriving DecidableEq

/-- `createBlockTracker` from `src/unnamed/part_000`. -/
def createBlockTracker (parents : List String) (type : String)
    (test : Option String) : BlockTracker :=
  let id := blockId parents
  { id := id, name := id, type := type, test := test,
    beforeStartTime := none, afterStartTime := none }

/-- An engine event consumed by the runner in `src/unnamed/part_000`
(the `end` event is handled separately by `onEnd`). -/
inductive Event where
  | error (err : ErrObj)
  | blockStart (parents : List String) (type : String) (test : Option String)
  | blockComplete (parents : List String) (type : String) (test : Option String)
deriving DecidableEq

/-- The mutable run state of `main` in `src/unnamed/part_000`:
`blockTrackers` (a string-keyed object, modelled as an association list),
`currentBlock`, `pendingBlocks`, `testCount`, `errorCount`; `halted`
models `process.exit(code)` having been called. -/
structure RunState where
  blockTrackers : List (String × BlockTracker)
  currentBlock : Option BlockTracker
  pendingBlocks : List String
  testCount : Nat
  errorCount : Nat
  halted : Option Nat
deriving DecidableEq

/-- The initial run state of `main` in `src/unnamed/part_000`. -/
def initialState : RunState :=
  { blockTrackers := [], currentBlock := none, pendingBlocks := [],
    testCount := 0, errorCount := 0, halted := none }

/-- `isBlockChange` from `src/unnamed/part_000`:
`!currentBlock || currentBlock.id !== getBlockId(ev)`. -/
def isBlockChange (st : RunState) (parents : List String) : Bool :=
  match st.currentBlock with
  | none => true
  | some b => b.id != blockId parents

/-- `setBlock` from `src/unnamed/part_000`: look the block id up in
`blockTrackers`, create and register a tracker when absent, point
`currentBlock` at it, and report whether it was newly created. -/
def setBlock (st : RunState) (parents : List String) (type : String)
    (test : Option String) : RunState × Bool :=
  let id := blockId parents
  match st.blockTrackers.lookup id with
  | some b => ({ st with currentBlock := some b }, false)
  | none =>
    let b := createBlockTracker parents type test
    ({ st with
        blockTrackers := (id, b) :: st.blockTrackers,
        currentBlock := some b }, true)

/-- Field update of the tracker registered under `id`.  The JavaScript
tracker is one shared object referenced both from `blockTrackers` and from
`currentBlock`, so mutating it is visible through both references; the
model applies the update at both places. -/
def updateTracker (st : RunState) (id : String)
    (f : BlockTracker → BlockTracker) : RunState :=
  { st with
    blockTrackers := st.blockTrackers.map
      (fun p => if p.1 == id then (p.1, f p.2) else p),
    currentBlock := st.currentBlock.map
      (fun b => if b.id == id then f b else b) }

/-- The `error` handler of `src/unnamed/part_000`: increment `errorCount`,
report the error, and when `errorCount >= maxErrors` print the notice and
`exitWithError()` (which calls `process.exit(1)`). -/
def onError (maxErrors : Option Nat) (st : RunState) (_err : ErrObj) :
    RunState :=
  let st1 := { st with errorCount := st.errorCount + 1 }
  if shouldBailOut st1.errorCount maxErrors then
    { st1 with halted := some 1 }
  else st1

/-- The `blockStart` handler of `src/unnamed/part_000`: call `setBlock` on
a block change (its return value is the spec's `isNewlyCreated` flag,
returned here alongside the state), then stamp `beforeStartTime` /
`afterStartTime` on the tracker registered under the event's id. -/
def onBlockStart (now : Nat) (st : RunState) (parents : List String)
    (type : String) (test : Option String) : RunState × Option Bool :=
  let pair :=
    if isBlockChange st parents then
      let r := setBlock st parents type test
      (r.1, some r.2)
    else (st, none)
  let id := blockId parents
  let st2 :=
    if type == "before" then
      updateTracker pair.1 id (fun tr => { tr with beforeStartTime := some now })
    else if type == "after" then
      updateTracker pair.1 id (fun tr => { tr with afterStartTime := some now })
    else pair.1
  (st2, pair.2)

/-- The `blockComplete` handler of `src/unnamed/part_000`: count `test`
completions and buffer a pending line for `pendingTest` events (duration
lines for `before` / `after` are output only and change no state).  The
missing-tracker branch is unreachable on well-formed streams (JavaScript
would throw there). -/
def onBlockComplete (st : RunState) (parents : List String) (type : String)
    (test : Option String) : RunState :=
  let id := blockId parents
  let st1 := if type == "test" then { st with testCount := st.testCount + 1 } else st
  if type == "pendingTest" then
    match st1.blockTrackers.lookup id with
    | some tr =>
      { st1 with pendingBlocks := st1.pendingBlocks ++
          [" - [" ++ tr.name ++ " " ++ jsStrOfUndefinable test ++ "] - pending"] }
    | none => st1
  else st1

/-- One event step of the `src/unnamed/part_000` runner, also producing the
`setBlock` newly-created flag when `setBlock` was invoked.  After
`process.exit` (`halted`) no further handler runs.  Timestamps do not
influence control flow; runs below instantiate `now` with `0`. -/
def stepT (maxErrors : Option Nat) (now : Nat) (st : RunState) :
    Event → RunState × Option Bool
  | Event.error err => (onError maxErrors st err, none)
  | Event.blockStart parents type test => onBlockStart now st parents type test
  | Event.blockComplete parents type test =>
    (onBlockComplete st parents type test, none)

/-- One event step, guarded by `halted`. -/
def stepG (maxErrors : Option Nat) (now : Nat) (st : RunState) (ev : Event) :
    RunState × Option Bool :=
  if st.halted.isSome then (st, none) else stepT maxErrors now st ev

/-- Run a list of events, collecting the per-event `setBlock` result
(`none` when `setBlock` was not invoked for that event). -/
def runT (maxErrors : Option Nat) (st : RunState) :
    List Event → RunState × List (Option Bool)
  | [] => (st, [])
  | ev :: rest =>
    let p := stepG maxErrors 0 st ev
    let q := runT maxErrors p.1 rest
    (q.1, p.2 :: q.2)

/-- The state after the `src/unnamed/part_000` runner processed a stream of
events from the initial state. -/
def runEvents (maxErrors : Option Nat) (evs : List Event) : RunState :=
  (runT maxErrors initialState evs).1

/-- The keys of the tracker registry. -/
def keysOf (st : RunState) : List String :=
  st.blockTrackers.map Prod.fst

/-- The block ids of the `blockStart` events of a stream, in order. -/
def startIds (evs : List Event) : List String :=
  evs.filterMap fun
    | Event.blockStart parents _ _ => some (blockId parents)
    | _ => none

/-- The id of a processed event for which `setBlock` reported
`isNew = true`, when paired with the `setBlock` result recorded for it. -/
def newIdOfPair : Event × Option Bool → Option String
  | (Event.blockStart parents _ _, some true) => some (blockId parents)
  | _ => none

/-- The block ids for which `setBlock` reported `isNew = true` while the
stream was processed, in order. -/
def newlyCreatedIds (maxErrors : Option Nat) (evs : List Event) : List String :=
  (evs.zip (runT maxErrors initialState evs).2).filterMap newIdOfPair

/-- Whether an event is an engine `error` event. -/
def isErrorEv : Event → Bool
  | Event.error _ => true
  | _ => false

/-- Structural invariant of the tracker registry: registry keys are
distinct, every tracker is registered under its own `id`, and
`currentBlock` always points at a registered tracker. -/
def RegistryInv (st : RunState) : Prop :=
  (keysOf st).Nodup ∧
  (∀ p ∈ st.blockTrackers, p.2.id = p.1) ∧
  (∀ b, st.currentBlock = some b → b.id ∈ keysOf st)

/-- Reference function: the first occurrences of the ids of a list, in
order, skipping ids already in `seen`. -/
def firstOcc (seen : List String) : List String → List String
  | [] => []
  | id :: ids =>
    if id ∈ seen then firstOcc seen ids
    else id :: firstOcc (id :: seen) ids

/-- Well-formedness of an event stream: every `blockComplete` is preceded
by a `blockStart` with the same `parents` sequence. -/
def wellFormedFrom (started : List (List String)) : List Event → Bool
  | [] => true
  | Event.blockStart parents _ _ :: rest =>
    wellFormedFrom (parents :: started) rest
  | Event.blockComplete parents _ _ :: rest =>
    decide (parents ∈ started) && wellFormedFrom started rest
  | Event.error _ :: rest => wellFormedFrom started rest

/-- Well-formedness of an event stream from the start of a run. -/
def wellFormed (evs : List Event) : Bool :=
  wellFormedFrom [] evs

/-- The one-line summary written by the `end` handler of
`src/unnamed/part_000`. -/
def summaryLine (testCount errorCount : Nat) : String :=
  "Test run complete. " ++ toString testCount ++ " tests ran. " ++
    toString errorCount ++ " errors reported."

/-- The report produced by the `end` handler of `src/unnamed/part_000`. -/
structure EndReport where
  pendingSection : List String
  summary : String
  banner : String
  exitCode : Nat
deriving DecidableEq

/-- The `end` handler of `src/unnamed/part_000`: emit the pending section
unless `quiet` suppresses it or it is empty, then the summary line, then
the `PASS` banner with `process.exit(0)` when `errorCount === 0`, else the
`FAIL` banner with `process.exit(1)`. -/
def onEnd (quiet : Bool) (st : RunState) : EndReport :=
  { pendingSection :=
      if !quiet && !st.pendingBlocks.isEmpty then st.pendingBlocks else [],
    summary := summaryLine st.testCount st.errorCount,
    banner := if st.errorCount = 0 then "PASS" else "FAIL",
    exitCode := if st.errorCount = 0 then 0 else 1 }

/-- The exit code chosen by the `t.on(end)` handler of the last revision in
`src/index.js`: when teardown hooks exist they are all invoked and awaited
via `Promise.all`; if every teardown succeeds the exit code is decided by
whether errors were captured, and a teardown failure exits with status 1
regardless.  `teardownResults` lists each teardown's success flag. -/
def teardownExitCode (errorsLen : Nat) (teardownResults : List Bool) : Nat :=
  if teardownResults.isEmpty then (if errorsLen > 0 then 1 else 0)
  else if teardownResults.all (fun b => b) then (if errorsLen > 0 then 1 else 0)
  else 1

/-- The bail-out test of the first revision's `error` handler in
`src/index.js`: `totalErrorCount > maxErrors` (strict), with `none`
modelling the default `maxErrors = Infinity`, which a finite count never
exceeds. -/
def rev1BailOut (total : Nat) (maxErrors : Option Nat) : Bool :=
  match maxErrors with
  | none => false
  | some m => decide (m < total)

/-- The notice written by the first revision's `error` handler in
`src/index.js` when `maxErrors` is exceeded. -/
def maxErrorsNotice (maxErrors : Option Nat) : String :=
  "maxErrors: " ++ jsStrOfMax maxErrors ++ " exceeded. All Errors reported. Exiting."

/-- The notice written by the first revision's `error` handler in
`src/index.js` when an error is detected inside a `before()` block. -/
def beforeBlockNotice (currentBlockPath : Option String) : String :=
  jsStrOfNullable currentBlockPath ++
    " : Error detected in before() block. All Errors reported. Exiting."

/-- Termination record of the first revision's `main` in `src/index.js`:
the exit code, the notice written alongside, and the errors reported by
the final `reportErrors()` call. -/
structure Rev1Halt where
  code : Nat
  notice : String
  reported : List ErrObj
deriving DecidableEq

/-- The mutable state of the first revision's `main` in `src/index.js`. -/
structure Rev1State where
  errorsToReport : List ErrObj
  totalErrorCount : Nat
  inBeforeBlock : Bool
  currentBlockPath : Option String
  testCount : Nat
  blockTestCount : Nat
  halted : Option Rev1Halt
deriving DecidableEq

/-- The initial state of the first revision's `main` in `src/index.js`. -/
def rev1Initial : Rev1State :=
  { errorsToReport := [], totalErrorCount := 0, inBeforeBlock := false,
    currentBlockPath := none, testCount := 0, blockTestCount := 0,
    halted := none }

/-- `isBlockChange` of the first revision in `src/index.js`:
`ev.parents.join(' ') !== currentBlockPath` (always true while
`currentBlockPath` is `null`). -/
def rev1IsBlockChange (st : Rev1State) (parents : List String) : Bool :=
  match st.currentBlockPath with
  | none => true
  | some p => p != blockId parents

/-- The `error` handler of the first revision in `src/index.js`: push the
error, increment `totalErrorCount`; when the count strictly exceeds
`maxErrors`, report and exit 1 with the maxErrors notice; otherwise, when
inside a `before()` block, report and exit 1 with the before-block
notice. -/
def rev1OnError (maxErrors : Option Nat) (st : Rev1State) (err : ErrObj) :
    Rev1State :=
  let st1 := { st with
    errorsToReport := st.errorsToReport ++ [err],
    totalErrorCount := st.totalErrorCount + 1 }
  if rev1BailOut st1.totalErrorCount maxErrors then
    { st1 with
      halted := some ⟨1, maxErrorsNotice maxErrors, st1.errorsToReport⟩ }
  else if st1.inBeforeBlock then
    { st1 with
      halted := some ⟨1, beforeBlockNotice st1.currentBlockPath, st1.errorsToReport⟩ }
  else st1

/-- The `blockStart` handler of the first revision in `src/index.js`: on a
block change record the new `currentBlockPath`; a `before` event raises
the `inBeforeBlock` flag (timestamps are output-only). -/
def rev1OnBlockStart (st : Rev1State) (parents : List String)
    (type : String) : Rev1State :=
  let st1 :=
    if rev1IsBlockChange st parents then
      { st with currentBlockPath := some (blockId parents) }
    else st
  if type == "before" then { st1 with inBeforeBlock := true } else st1

/-- The `blockComplete` handler of the first revision in `src/index.js`:
clear `inBeforeBlock`; any type other than `before` / `after` counts as a
completed test; on a block change, report the buffered errors and clear
the block state. -/
def rev1OnBlockComplete (st : Rev1State) (parents : List String)
    (type : String) : Rev1State :=
  let st1 := { st with inBeforeBlock := false }
  let st2 :=
    if type == "before" then st1
    else if type == "after" then st1
    else { st1 with testCount := st1.testCount + 1 }
  if rev1IsBlockChange st2 parents then
    { st2 with
      currentBlockPath := none,
      errorsToReport := [],
      blockTestCount := 0 }
  else st2

/-- One event step of the first revision's `main` in `src/index.js`;
after `process.exit` no further handler runs. -/
def rev1Step (maxErrors : Option Nat) (st : Rev1State) (ev : Event) :
    Rev1State :=
  if st.halted.isSome then st
  else
    match ev with
    | Event.error err => rev1OnError maxErrors st err
    | Event.blockStart parents type _ => rev1OnBlockStart st parents type
    | Event.blockComplete parents type _ => rev1OnBlockComplete st parents type

/-- A hook lifecycle event: hook `i` is invoked (`start`) or its promise
settles (`finish`). -/
inductive HookEv where
  | start (i : Nat)
  | finish (i : Nat)
deriving DecidableEq

/-- The hook lifecycle trace of the teardown path of the last revision's
`t.on(end)` handler in `src/index.js`:
`const promises = teardowns.map((teardown) => teardown());` followed by
`Promise.all(promises)`.  The `map` loop synchronously invokes every
teardown in registration order before any of the returned promises can
settle; the settlements then occur afterwards, in some order given by
`finishOrder`. -/
def promiseAllTrace (n : Nat) (finishOrder : List Nat) : List HookEv :=
  (List.range n).map HookEv.start ++ finishOrder.map HookEv.finish

/-- Largest number of hooks simultaneously in flight along a trace
(accumulator: current in-flight count and maximum seen so far). -/
def maxInFlightAux (cur maxSoFar : Nat) : List HookEv → Nat
  | [] => maxSoFar
  | HookEv.start _ :: rest =>
    maxInFlightAux (cur + 1) (max maxSoFar (cur + 1)) rest
  | HookEv.finish _ :: rest => maxInFlightAux (cur - 1) maxSoFar rest

/-- Largest number of hooks simultaneously in flight along a trace. -/
def maxInFlight (tr : List HookEv) : Nat :=
  maxInFlightAux 0 0 tr

/-- A trace runs its hooks strictly sequentially when no two hooks are ever
in flight at the same time. -/
def sequentialTrace (tr : List HookEv) : Prop :=
  maxInFlight tr ≤ 1

/-- The hook indices invoked along a trace, in invocation order. -/
def startsOf (tr : List HookEv) : List Nat :=
  tr.filterMap fun
    | HookEv.start i => some i
    | _ => none

/-- Modelled from the spec: the hook orchestrator of §4.4 (the per-hook
race between the completion signal and a timeout timer, with a one-shot
settlement) is not present under `src/` — only the `Promise.all`
scaffolding of a work-in-progress revision is.  `settled` is the one-shot
guard; the counters record how often a success or failure was recorded
for this hook. -/
structure HookSettle where
  settled : Bool
  timedOut : Bool
  failures : Nat
  successes : Nat
deriving DecidableEq

/-- Modelled from the spec: the hook's timeout timer fires.  If the hook is
already settled nothing happens; otherwise the hook settles as a timeout
failure. -/
def fireTimeout (s : HookSettle) : HookSettle :=
  if s.settled then s
  else { settled := true, timedOut := true,
         failures := s.failures + 1, successes := s.successes }

/-- Modelled from the spec: the hook's completion signal is invoked, with
no argument (`none`, success) or a truthy error (`some`, failure).  If the
hook is already settled the invocation is ignored. -/
def invokeDone (err : Option String) (s : HookSettle) : HookSettle :=
  if s.settled then s
  else
    match err with
    | some _ => { s with settled := true, failures := s.failures + 1 }
    | none => { s with settled := true, successes := s.successes + 1 }

/-- The decision taken after all configured paths were walked, from
`paths.reduce(loadPath, ...).then(...)` in `src/unnamed/part_000`: start
the engine run, or print the `No test files found` notice followed by the
searched paths and exit with status 0. -/
inductive LoadOutcome where
  | runEngine
  | exitNoFiles (lines : List String) (code : Nat)
deriving DecidableEq

/-- The branch on `testFileLoadCount` in `src/unnamed/part_000`: the engine
is started only when at least one test file was loaded. -/
def afterLoad (testFileLoadCount : Nat) (paths : List String) : LoadOutcome :=
  if testFileLoadCount > 0 then LoadOutcome.runEngine
  else LoadOutcome.exitNoFiles ("No test files found in paths:" :: paths) 0

/-- A block-name segment that cannot collide under space-joining: nonempty
and containing no space character. -/
def goodSeg (s : String) : Bool :=
  s != "" && !s.data.contains ' '

/-- All segments of a parents sequence are collision-free. -/
def goodSegs (l : List String) : Bool :=
  l.all goodSeg

/-- The character-level contribution of the remaining segments of a
space-join: each remaining segment is preceded by one space. -/
def sepJoin : List String → List Char
  | [] => []
  | a :: as => ' ' :: (a.data ++ sepJoin as)

/-! ## Theorems -/

theorem data_inj {a b : String} (h : a.data = b.data) : a = b := by
  cases a; cases b; exact congrArg String.mk h

theorem lookup_none_iff (l : List (String × BlockTracker)) (k : String) :
    l.lookup k = none ↔ k ∉ l.map Prod.fst := by
  rw [List.lookup_eq_none_iff]
  constructor
  · intro h hmem
    obtain ⟨p, hp, hkp⟩ := List.mem_map.mp hmem
    have hne := h p hp
    simp only [bne_iff_ne, ne_eq] at hne
    exact hne hkp.symm
  · intro h p hp
    simp only [bne_iff_ne, ne_eq]
    intro hk
    exact h (List.mem_map.mpr ⟨p, hp, hk.symm⟩)

theorem lookup_mem {l : List (String × BlockTracker)} {k : String}
    {b : BlockTracker} (h : l.lookup k = some b) : (k, b) ∈ l := by
  rw [List.lookup_eq_some_iff] at h
  obtain ⟨l₁, l₂, rfl, -⟩ := h
  simp

theorem updateTracker_keysOf (st : RunState) (id : String)
    (f : BlockTracker → BlockTracker) :
    keysOf (updateTracker st id f) = keysOf st := by
  unfold updateTracker keysOf
  simp only [List.map_map]
  induction st.blockTrackers with
  | nil => rfl
  | cons p l ih =>
    simp only [List.map_cons] at *
    rw [ih]
    by_cases h : p.1 == id <;> simp [h, Function.comp]

theorem updateTracker_inv (st : RunState) (id : String)
    (f : BlockTracker → BlockTracker) (hf : ∀ tr, (f tr).id = tr.id)
    (h : RegistryInv st) : RegistryInv (updateTracker st id f) := by
  obtain ⟨h1, h2, h3⟩ := h
  refine ⟨by rwa [updateTracker_keysOf], ?_, ?_⟩
  · intro p hp
    simp only [updateTracker, List.mem_map] at hp
    obtain ⟨q, hq, hpq⟩ := hp
    by_cases hid : q.1 == id
    · simp only [hid, if_pos] at hpq
      subst hpq
      simpa [hf] using h2 q hq
    · simp only [hid] at hpq
      simp only [Bool.false_eq_true, if_false] at hpq
      subst hpq
      exact h2 q hq
  · intro b hb
    rw [updateTracker_keysOf]
    simp only [updateTracker, Option.map_eq_some'] at hb
    obtain ⟨b0, hb0, hfb⟩ := hb
    by_cases hid : b0.id == id
    · simp only [hid, if_pos] at hfb
      subst hfb
      rw [hf]
      exact h3 b0 hb0
    · simp only [hid] at hfb
      simp only [Bool.false_eq_true, if_false] at hfb
      subst hfb
      exact h3 b0 hb0

theorem updateTracker_currentBlock (st : RunState) (id : String)
    (f : BlockTracker → BlockTracker) :
    (updateTracker st id f).currentBlock =
      st.currentBlock.map (fun b => if b.id == id then f b else b) := rfl

theorem updateTracker_fields (st : RunState) (id : String)
    (f : BlockTracker → BlockTracker) :
    (updateTracker st id f).errorCount = st.errorCount ∧
    (updateTracker st id f).halted = st.halted ∧
    (updateTracker st id f).testCount = st.testCount ∧
    (updateTracker st id f).pendingBlocks = st.pendingBlocks :=
  ⟨rfl, rfl, rfl, rfl⟩

theorem setBlock_of_lookup_some {st : RunState} {parents : List String}
    {type : String} {test : Option String} {b : BlockTracker}
    (h : st.blockTrackers.lookup (blockId parents) = some b) :
    setBlock st parents type test = ({ st with currentBlock := some b }, false) := by
  unfold setBlock
  dsimp only
  rw [h]

theorem setBlock_of_lookup_none {st : RunState} {parents : List String}
    {type : String} {test : Option String}
    (h : st.blockTrackers.lookup (blockId parents) = none) :
    setBlock st parents type test =
      ({ st with
          blockTrackers :=
            (blockId parents, createBlockTracker parents type test) ::
              st.blockTrackers,
          currentBlock := some (createBlockTracker parents type test) },
        true) := by
  unfold setBlock
  dsimp only
  rw [h]

theorem onError_fields (maxErrors : Option Nat) (st : RunState) (err : ErrObj) :
    (onError maxErrors st err).errorCount = st.errorCount + 1 ∧
    (onError maxErrors st err).blockTrackers = st.blockTrackers ∧
    (onError maxErrors st err).currentBlock = st.currentBlock ∧
    (onError maxErrors st err).testCount = st.testCount ∧
    (onError maxErrors st err).pendingBlocks = st.pendingBlocks := by
  unfold onError
  dsimp only
  refine ⟨?_, ?_, ?_, ?_, ?_⟩ <;> (repeat' split) <;> rfl

theorem onError_halted (maxErrors : Option Nat) (st : RunState) (err : ErrObj) :
    (onError maxErrors st err).halted =
      if shouldBailOut (st.errorCount + 1) maxErrors then some 1 else st.halted := by
  unfold onError
  dsimp only
  split <;> simp_all

theorem onBlockComplete_fields (st : RunState) (parents : List String)
    (type : String) (test : Option String) :
    (onBlockComplete st parents type test).errorCount = st.errorCount ∧
    (onBlockComplete st parents type test).blockTrackers = st.blockTrackers ∧
    (onBlockComplete st parents type test).currentBlock = st.currentBlock ∧
    (onBlockComplete st parents type test).halted = st.halted := by
  unfold onBlockComplete
  dsimp only
  refine ⟨?_, ?_, ?_, ?_⟩ <;> (repeat' split) <;> rfl

theorem setBlock_fields (st : RunState) (parents : List String)
    (type : String) (test : Option String) :
    (setBlock st parents type test).1.errorCount = st.errorCount ∧
    (setBlock st parents type test).1.halted = st.halted ∧
    (setBlock st parents type test).1.testCount = st.testCount ∧
    (setBlock st parents type test).1.pendingBlocks = st.pendingBlocks := by
  cases h : st.blockTrackers.lookup (blockId parents) with
  | some b => rw [setBlock_of_lookup_some h]; exact ⟨rfl, rfl, rfl, rfl⟩
  | none => rw [setBlock_of_lookup_none h]; exact ⟨rfl, rfl, rfl, rfl⟩

theorem onBlockStart_fields (now : Nat) (st : RunState) (parents : List String)
    (type : String) (test : Option String) :
    (onBlockStart now st parents type test).1.errorCount = st.errorCount ∧
    (onBlockStart now st parents type test).1.halted = st.halted ∧
    (onBlockStart now st parents type test).1.testCount = st.testCount ∧
    (onBlockStart now st parents type test).1.pendingBlocks = st.pendingBlocks := by
  obtain ⟨h1, h2, h3, h4⟩ := setBlock_fields st parents type test
  unfold onBlockStart
  dsimp only
  refine ⟨?_, ?_, ?_, ?_⟩ <;> (repeat' split) <;>
    first
    | rfl
    | exact h1
    | exact h2
    | exact h3
    | exact h4

theorem runT_of_halted (maxErrors : Option Nat) (evs : List Event) :
    ∀ st : RunState, st.halted.isSome →
      (runT maxErrors st evs).1 = st := by
  induction evs with
  | nil => intro st _; rfl
  | cons ev rest ih =>
    intro st h
    show (runT maxErrors (stepG maxErrors 0 st ev).1 rest).1 = st
    rw [show stepG maxErrors 0 st ev = (st, none) by unfold stepG; rw [if_pos h]]
    exact ih st h

theorem stepG_errorCount (maxErrors : Option Nat) (st : RunState) (ev : Event)
    (h : st.halted = none) :
    (stepG maxErrors 0 st ev).1.errorCount =
      st.errorCount + (if isErrorEv ev then 1 else 0) := by
  unfold stepG
  rw [if_neg (by simp [h])]
  cases ev with
  | error err => simpa [stepT, isErrorEv] using (onError_fields maxErrors st err).1
  | blockStart p t tst =>
    simpa [stepT, isErrorEv] using (onBlockStart_fields 0 st p t tst).1
  | blockComplete p t tst =>
    simpa [stepT, isErrorEv] using (onBlockComplete_fields st p t tst).1

theorem runT_errorCount (maxErrors : Option Nat) (evs : List Event) :
    ∀ st : RunState, st.halted = none →
      (runT maxErrors st evs).1.halted = none →
      (runT maxErrors st evs).1.errorCount =
        st.errorCount + (evs.filter isErrorEv).length := by
  induction evs with
  | nil => intro st h _; simp [runT]
  | cons ev rest ih =>
    intro st h hfin
    show (runT maxErrors (stepG maxErrors 0 st ev).1 rest).1.errorCount = _
    have hfin' : (runT maxErrors (stepG maxErrors 0 st ev).1 rest).1.halted = none := hfin
    have hst1 : (stepG maxErrors 0 st ev).1.halted = none := by
      by_contra hne
      have hs : (stepG maxErrors 0 st ev).1.halted.isSome := by
        cases hh : (stepG maxErrors 0 st ev).1.halted with
        | none => exact absurd hh hne
        | some c => simp
      rw [runT_of_halted maxErrors rest _ hs] at hfin'
      rw [hfin'] at hs
      simp at hs
    rw [ih _ hst1 hfin', stepG_errorCount maxErrors st ev h]
    cases hev : isErrorEv ev <;> simp [List.filter_cons, hev] <;> omega

/-- C2: at run end the exit status is 0 iff zero errors were captured, the
banner is `PASS` exactly when zero errors were captured (`FAIL`
otherwise), the summary line has the form
`Test run complete. <N> tests ran. <M> errors reported.`, the
`errorCount` reported as `M` is exactly the number of captured `error`
events of the run, and in the teardown variant a teardown failure forces
exit status 1 even when zero test errors were captured (exit 0 iff no
errors and every teardown succeeded). -/
theorem c2_end_report_exit :
    (∀ (quiet : Bool) (st : RunState),
      ((onEnd quiet st).exitCode = 0 ↔ st.errorCount = 0) ∧
      ((onEnd quiet st).banner = "PASS" ↔ st.errorCount = 0) ∧
      (onEnd quiet st).summary =
        "Test run complete. " ++ toString st.testCount ++ " tests ran. " ++
          toString st.errorCount ++ " errors reported.") ∧
    (∀ (errorsLen : Nat) (teardownResults : List Bool),
      teardownExitCode errorsLen teardownResults = 0 ↔
        (errorsLen = 0 ∧ teardownResults.all (fun b => b) = true)) ∧
    (∀ (maxErrors : Option Nat) (evs : List Event),
      (runEvents maxErrors evs).halted = none →
      (runEvents maxErrors evs).errorCount = (evs.filter isErrorEv).length) := by
  refine ⟨?_, ?_, ?_⟩
  · intro quiet st
    refine ⟨?_, ?_, rfl⟩
    · unfold onEnd
      by_cases h : st.errorCount = 0 <;> simp [h]
    · unfold onEnd
      by_cases h : st.errorCount = 0 <;> simp [h]
  · intro errorsLen tds
    unfold teardownExitCode
    by_cases he : tds.isEmpty
    · rw [if_pos he]
      have : tds.all (fun b => b) = true := by
        cases tds with
        | nil => rfl
        | cons a t => simp [List.isEmpty_cons] at he
      by_cases h0 : errorsLen > 0 <;> simp [h0, this] <;> omega
    · rw [if_neg he]
      by_cases ha : tds.all (fun b => b) = true
      · rw [if_pos ha]
        by_cases h0 : errorsLen > 0 <;> simp [h0, ha] <;> omega
      · rw [if_neg ha]
        simp [ha]
  · intro maxErrors evs h
    simpa [initialState] using
      runT_errorCount maxErrors evs initialState rfl h

/-- C2 (witness). -/
theorem c2_end_report_exit_witness :
    (runEvents (some 5) [Event.error ⟨none, none, none, "e"⟩]).errorCount =
      (([Event.error ⟨none, none, none, "e"⟩]).filter isErrorEv).length :=
  c2_end_report_exit.2.2 (some 5) [Event.error ⟨none, none, none, "e"⟩]
    (by decide)

/-- C9: while the `inBeforeBlock` flag is raised (set by a `blockStart` of
type `before` and cleared by any `blockComplete`), an arriving `error`
event whose capture does not exceed `maxErrors` still terminates the run
with exit status 1, reporting the buffered captured errors including this
one together with the `Error detected in before() block` notice. -/
theorem c9_before_block_error_exits :
    (∀ (maxErrors : Option Nat) (st : Rev1State) (err : ErrObj),
      st.halted = none → st.inBeforeBlock = true →
      rev1BailOut (st.totalErrorCount + 1) maxErrors = false →
      (rev1Step maxErrors st (Event.error err)).halted =
        some ⟨1, beforeBlockNotice st.currentBlockPath,
          st.errorsToReport ++ [err]⟩) ∧
    (∀ (maxErrors : Option Nat) (st : Rev1State) (parents : List String)
        (test : Option String),
      st.halted = none →
      (rev1Step maxErrors st
        (Event.blockStart parents "before" test)).inBeforeBlock = true) ∧
    (∀ (maxErrors : Option Nat) (st : Rev1State) (parents : List String)
        (type : String) (test : Option String),
      st.halted = none →
      (rev1Step maxErrors st
        (Event.blockComplete parents type test)).inBeforeBlock = false) := by
  refine ⟨?_, ?_, ?_⟩
  · intro maxErrors st err h hb hnb
    unfold rev1Step
    rw [if_neg (by simp [h])]
    unfold rev1OnError
    dsimp only
    rw [if_neg (by simp [hnb])]
    rw [if_pos (by simpa using hb)]
  · intro maxErrors st parents test h
    unfold rev1Step
    rw [if_neg (by simp [h])]
    unfold rev1OnBlockStart
    dsimp only
    split <;> first | rfl | simp_all
  · intro maxErrors st parents type test h
    unfold rev1Step
    rw [if_neg (by simp [h])]
    unfold rev1OnBlockComplete
    dsimp only
    split
    · split <;> rfl
    · split
      · split <;> rfl
      · split <;> rfl

/-- C9 (witness). -/
theorem c9_before_block_error_exits_witness :
    (rev1Step none { rev1Initial with inBeforeBlock := true }
        (Event.error ⟨none, none, none, "e"⟩)).halted =
      some ⟨1, beforeBlockNotice none, [⟨none, none, none, "e"⟩]⟩ := by
  have h := c9_before_block_error_exits.1 none
    { rev1Initial with inBeforeBlock := true } ⟨none, none, none, "e"⟩
    rfl rfl rfl
  simpa using h

theorem registryInv_of_eq {st st' : RunState}
    (hb : st'.blockTrackers = st.blockTrackers)
    (hc : st'.currentBlock = st.currentBlock)
    (h : RegistryInv st) : RegistryInv st' := by
  unfold RegistryInv keysOf at *
  rw [hb, hc]
  exact h

theorem keysOf_of_eq {st st' : RunState}
    (hb : st'.blockTrackers = st.blockTrackers) : keysOf st' = keysOf st := by
  unfold keysOf
  rw [hb]

theorem mem_keys_of_lookup_some {st : RunState} {k : String} {b : BlockTracker}
    (h : st.blockTrackers.lookup k = some b) : k ∈ keysOf st :=
  List.mem_map.mpr ⟨(k, b), lookup_mem h, rfl⟩

theorem not_mem_keys_of_lookup_none {st : RunState} {k : String}
    (h : st.blockTrackers.lookup k = none) : k ∉ keysOf st :=
  (lookup_none_iff st.blockTrackers k).mp h

theorem isBlockChange_false_elim {st : RunState} {parents : List String}
    (h : isBlockChange st parents = false) :
    ∃ b, st.currentBlock = some b ∧ b.id = blockId parents := by
  unfold isBlockChange at h
  cases hc : st.currentBlock with
  | none => rw [hc] at h; simp at h
  | some b =>
    rw [hc] at h
    refine ⟨b, rfl, ?_⟩
    simpa using h

theorem stepG_of_not_halted {maxErrors : Option Nat} {st : RunState}
    (now : Nat) (ev : Event) (h : st.halted = none) :
    stepG maxErrors now st ev = stepT maxErrors now st ev := by
  unfold stepG
  rw [if_neg (by simp [h])]

theorem onBlockStart_noChange {st : RunState} {parents : List String}
    (hc : isBlockChange st parents = false) (now : Nat) (type : String)
    (test : Option String) :
    keysOf (onBlockStart now st parents type test).1 = keysOf st ∧
    (onBlockStart now st parents type test).2 = none ∧
    (onBlockStart now st parents type test).1.halted = st.halted ∧
    (RegistryInv st → RegistryInv (onBlockStart now st parents type test).1) := by
  unfold onBlockStart
  dsimp only
  rw [if_neg (show ¬(isBlockChange st parents = true) by simp [hc])]
  refine ⟨?_, rfl, ?_, ?_⟩
  · split
    · exact updateTracker_keysOf st _ _
    · split
      · exact updateTracker_keysOf st _ _
      · rfl
  · split
    · rfl
    · split
      · rfl
      · rfl
  · intro hinv
    split
    · exact updateTracker_inv st _ _ (fun tr => rfl) hinv
    · split
      · exact updateTracker_inv st _ _ (fun tr => rfl) hinv
      · exact hinv

theorem onBlockStart_changeFound {st : RunState} {parents : List String}
    {b : BlockTracker} (hc : isBlockChange st parents = true)
    (hl : st.blockTrackers.lookup (blockId parents) = some b)
    (now : Nat) (type : String) (test : Option String) :
    keysOf (onBlockStart now st parents type test).1 = keysOf st ∧
    (onBlockStart now st parents type test).2 = some false ∧
    (onBlockStart now st parents type test).1.halted = st.halted ∧
    (RegistryInv st → RegistryInv (onBlockStart now st parents type test).1) := by
  unfold onBlockStart
  dsimp only
  rw [if_pos hc, setBlock_of_lookup_some hl]
  refine ⟨?_, rfl, ?_, ?_⟩
  · split
    · exact updateTracker_keysOf _ _ _
    · split
      · exact updateTracker_keysOf _ _ _
      · rfl
  · split
    · rfl
    · split
      · rfl
      · rfl
  · intro hinv
    have hst' : RegistryInv { st with currentBlock := some b } := by
      obtain ⟨h1, h2, h3⟩ := hinv
      refine ⟨h1, h2, ?_⟩
      intro b' hb'
      have hbb : b = b' := by simpa using hb'
      subst hbb
      have hbid : b.id = blockId parents := h2 _ (lookup_mem hl)
      show b.id ∈ keysOf st
      rw [hbid]
      exact mem_keys_of_lookup_some hl
    split
    · exact updateTracker_inv _ _ _ (fun tr => rfl) hst'
    · split
      · exact updateTracker_inv _ _ _ (fun tr => rfl) hst'
      · exact hst'

theorem onBlockStart_changeNew {st : RunState} {parents : List String}
    (hc : isBlockChange st parents = true)
    (hl : st.blockTrackers.lookup (blockId parents) = none)
    (now : Nat) (type : String) (test : Option String) :
    keysOf (onBlockStart now st parents type test).1 =
      blockId parents :: keysOf st ∧
    (onBlockStart now st parents type test).2 = some true ∧
    (onBlockStart now st parents type test).1.halted = st.halted ∧
    (RegistryInv st → RegistryInv (onBlockStart now st parents type test).1) := by
  unfold onBlockStart
  dsimp only
  rw [if_pos hc, setBlock_of_lookup_none hl]
  have hkeys : keysOf
      { st with
        blockTrackers :=
          (blockId parents, createBlockTracker parents type test) ::
            st.blockTrackers,
        currentBlock := some (createBlockTracker parents type test) } =
      blockId parents :: keysOf st := by
    unfold keysOf
    simp
  refine ⟨?_, rfl, ?_, ?_⟩
  · split
    · rw [updateTracker_keysOf, hkeys]
    · split
      · rw [updateTracker_keysOf, hkeys]
      · exact hkeys
  · split
    · rfl
    · split
      · rfl
      · rfl
  · intro hinv
    obtain ⟨h1, h2, h3⟩ := hinv
    have hst' : RegistryInv
        { st with
          blockTrackers :=
            (blockId parents, createBlockTracker parents type test) ::
              st.blockTrackers,
          currentBlock := some (createBlockTracker parents type test) } := by
      refine ⟨?_, ?_, ?_⟩
      · rw [hkeys, List.nodup_cons]
        exact ⟨not_mem_keys_of_lookup_none hl, h1⟩
      · intro p hp
        rcases List.mem_cons.mp hp with hp0 | hp'
        · rw [hp0]
          rfl
        · exact h2 p hp'
      · intro b' hb'
        have hbb : createBlockTracker parents type test = b' := by
          simpa using hb'
        subst hbb
        rw [hkeys]
        exact List.mem_cons_self _ _
    split
    · exact updateTracker_inv _ _ _ (fun tr => rfl) hst'
    · split
      · exact updateTracker_inv _ _ _ (fun tr => rfl) hst'
      · exact hst'

theorem startIds_cons_error (err : ErrObj) (rest : List Event) :
    startIds (Event.error err :: rest) = startIds rest := by
  simp [startIds, List.filterMap_cons]

theorem startIds_cons_complete (parents : List String) (type : String)
    (test : Option String) (rest : List Event) :
    startIds (Event.blockComplete parents type test :: rest) = startIds rest := by
  simp [startIds, List.filterMap_cons]

theorem startIds_cons_start (parents : List String) (type : String)
    (test : Option String) (rest : List Event) :
    startIds (Event.blockStart parents type test :: rest) =
      blockId parents :: startIds rest := by
  simp [startIds, List.filterMap_cons]

theorem firstOcc_cons_of_mem {seen : List String} {id : String}
    (ids : List String) (h : id ∈ seen) :
    firstOcc seen (id :: ids) = firstOcc seen ids := by
  simp only [firstOcc]
  rw [if_pos h]

theorem firstOcc_cons_of_not_mem {seen : List String} {id : String}
    (ids : List String) (h : id ∉ seen) :
    firstOcc seen (id :: ids) = id :: firstOcc (id :: seen) ids := by
  simp only [firstOcc]
  rw [if_neg h]

theorem mem_firstOcc (ids : List String) :
    ∀ (seen : List String) (id : String),
      id ∈ firstOcc seen ids ↔ id ∈ ids ∧ id ∉ seen := by
  induction ids with
  | nil => intro seen id; simp [firstOcc]
  | cons a t ih =>
    intro seen id
    by_cases ha : a ∈ seen
    · rw [firstOcc_cons_of_mem t ha, ih]
      simp only [List.mem_cons]
      constructor
      · rintro ⟨hm, hn⟩
        exact ⟨Or.inr hm, hn⟩
      · rintro ⟨hm | hm, hn⟩
        · exact absurd (hm ▸ ha) hn
        · exact ⟨hm, hn⟩
    · rw [firstOcc_cons_of_not_mem t ha]
      simp only [List.mem_cons, ih]
      constructor
      · rintro (rfl | ⟨hm, hn⟩)
        · exact ⟨Or.inl rfl, ha⟩
        · refine ⟨Or.inr hm, fun hs => hn (Or.inr hs)⟩
      · rintro ⟨rfl | hm, hn⟩
        · exact Or.inl rfl
        · by_cases hid : id = a
          · exact Or.inl hid
          · exact Or.inr ⟨hm, by simp [hid, hn]⟩
  
theorem firstOcc_nodup (ids : List String) :
    ∀ seen : List String, (firstOcc seen ids).Nodup := by
  induction ids with
  | nil => intro seen; simp [firstOcc]
  | cons a t ih =>
    intro seen
    by_cases ha : a ∈ seen
    · rw [firstOcc_cons_of_mem t ha]
      exact ih seen
    · rw [firstOcc_cons_of_not_mem t ha, List.nodup_cons]
      refine ⟨?_, ih (a :: seen)⟩
      rw [mem_firstOcc]
      rintro ⟨-, hn⟩
      exact hn (List.mem_cons_self a seen)

theorem runT_registry (maxErrors : Option Nat) (evs : List Event) :
    ∀ st : RunState, st.halted = none → RegistryInv st →
      (runT maxErrors st evs).1.halted = none →
      RegistryInv (runT maxErrors st evs).1 ∧
      (∀ id, id ∈ keysOf (runT maxErrors st evs).1 ↔
        id ∈ keysOf st ∨ id ∈ startIds evs) ∧
      (evs.zip (runT maxErrors st evs).2).filterMap newIdOfPair =
        firstOcc (keysOf st) (startIds evs) := by
  induction evs with
  | nil =>
    intro st _ hi _
    refine ⟨hi, ?_, rfl⟩
    intro id
    simp [startIds, runT]
  | cons ev rest ih =>
    intro st h hi hfin
    have hrun : runT maxErrors st (ev :: rest) =
        ((runT maxErrors (stepG maxErrors 0 st ev).1 rest).1,
          (stepG maxErrors 0 st ev).2 ::
            (runT maxErrors (stepG maxErrors 0 st ev).1 rest).2) := rfl
    rw [hrun] at hfin ⊢
    dsimp only at hfin ⊢
    have hst1 : (stepG maxErrors 0 st ev).1.halted = none := by
      by_contra hne
      have hs : (stepG maxErrors 0 st ev).1.halted.isSome = true := by
        cases hh : (stepG maxErrors 0 st ev).1.halted with
        | none => exact absurd hh hne
        | some c => rfl
      rw [runT_of_halted maxErrors rest _ hs] at hfin
      rw [hfin] at hs
      simp at hs
    cases ev with
    | error err =>
      have hsg : stepG maxErrors 0 st (Event.error err) =
          (onError maxErrors st err, none) := by
        rw [stepG_of_not_halted 0 _ h]
        rfl
      rw [hsg] at hst1 hfin ⊢
      dsimp only at hst1 hfin ⊢
      have hgf := onError_fields maxErrors st err
      have hkeys : keysOf (onError maxErrors st err) = keysOf st :=
        keysOf_of_eq hgf.2.1
      have hinv1 : RegistryInv (onError maxErrors st err) :=
        registryInv_of_eq hgf.2.1 hgf.2.2.1 hi
      obtain ⟨ih1, ih2, ih3⟩ := ih (onError maxErrors st err) hst1 hinv1 hfin
      refine ⟨ih1, ?_, ?_⟩
      · intro id
        rw [ih2 id, hkeys, startIds_cons_error]
      · rw [List.zip_cons_cons, List.filterMap_cons]
        simp only [newIdOfPair]
        rw [ih3, hkeys, startIds_cons_error]
    | blockComplete parents type test =>
      have hsg : stepG maxErrors 0 st (Event.blockComplete parents type test) =
          (onBlockComplete st parents type test, none) := by
        rw [stepG_of_not_halted 0 _ h]
        rfl
      rw [hsg] at hst1 hfin ⊢
      dsimp only at hst1 hfin ⊢
      have hgf := onBlockComplete_fields st parents type test
      have hkeys : keysOf (onBlockComplete st parents type test) = keysOf st :=
        keysOf_of_eq hgf.2.1
      have hinv1 : RegistryInv (onBlockComplete st parents type test) :=
        registryInv_of_eq hgf.2.1 hgf.2.2.1 hi
      obtain ⟨ih1, ih2, ih3⟩ :=
        ih (onBlockComplete st parents type test) hst1 hinv1 hfin
      refine ⟨ih1, ?_, ?_⟩
      · intro id
        rw [ih2 id, hkeys, startIds_cons_complete]
      · rw [List.zip_cons_cons, List.filterMap_cons]
        simp only [newIdOfPair]
        rw [ih3, hkeys, startIds_cons_complete]
    | blockStart parents type test =>
      have hsg : stepG maxErrors 0 st (Event.blockStart parents type test) =
          onBlockStart 0 st parents type test := by
        rw [stepG_of_not_halted 0 _ h]
        rfl
      rw [hsg] at hst1 hfin ⊢
      by_cases hc : isBlockChange st parents = true
      · cases hl : st.blockTrackers.lookup (blockId parents) with
        | some b =>
          obtain ⟨hk, ho, hh, hinvf⟩ := onBlockStart_changeFound hc hl 0 type test
          have hIDk : blockId parents ∈ keysOf st := mem_keys_of_lookup_some hl
          have hst1' : (onBlockStart 0 st parents type test).1.halted = none := by
            rw [hh]; exact h
          obtain ⟨ih1, ih2, ih3⟩ :=
            ih (onBlockStart 0 st parents type test).1 hst1' (hinvf hi) hfin
          refine ⟨ih1, ?_, ?_⟩
          · intro id
            rw [ih2 id, hk, startIds_cons_start]
            simp only [List.mem_cons]
            constructor
            · rintro (hmk | hmr)
              · exact Or.inl hmk
              · exact Or.inr (Or.inr hmr)
            · rintro (hmk | rfl | hmr)
              · exact Or.inl hmk
              · exact Or.inl hIDk
              · exact Or.inr hmr
          · rw [List.zip_cons_cons, List.filterMap_cons, ho]
            simp only [newIdOfPair]
            rw [ih3, hk, startIds_cons_start, firstOcc_cons_of_mem _ hIDk]
        | none =>
          obtain ⟨hk, ho, hh, hinvf⟩ := onBlockStart_changeNew hc hl 0 type test
          have hIDk : blockId parents ∉ keysOf st := not_mem_keys_of_lookup_none hl
          have hst1' : (onBlockStart 0 st parents type test).1.halted = none := by
            rw [hh]; exact h
          obtain ⟨ih1, ih2, ih3⟩ :=
            ih (onBlockStart 0 st parents type test).1 hst1' (hinvf hi) hfin
          refine ⟨ih1, ?_, ?_⟩
          · intro id
            rw [ih2 id, hk, startIds_cons_start]
            simp only [List.mem_cons]
            constructor
            · rintro ((rfl | hmk) | hmr)
              · exact Or.inr (Or.inl rfl)
              · exact Or.inl hmk
              · exact Or.inr (Or.inr hmr)
            · rintro (hmk | rfl | hmr)
              · exact Or.inl (Or.inr hmk)
              · exact Or.inl (Or.inl rfl)
              · exact Or.inr hmr
          · rw [List.zip_cons_cons, List.filterMap_cons, ho]
            simp only [newIdOfPair]
            rw [ih3, hk, startIds_cons_start, firstOcc_cons_of_not_mem _ hIDk]
      · have hc' : isBlockChange st parents = false := by
          cases hcc : isBlockChange st parents with
          | true => exact absurd hcc hc
          | false => rfl
        obtain ⟨b, hcb, hbid⟩ := isBlockChange_false_elim hc'
        obtain ⟨hk, ho, hh, hinvf⟩ := onBlockStart_noChange hc' 0 type test
        have hIDk : blockId parents ∈ keysOf st := by
          rw [← hbid]
          exact hi.2.2 b hcb
        have hst1' : (onBlockStart 0 st parents type test).1.halted = none := by
          rw [hh]; exact h
        obtain ⟨ih1, ih2, ih3⟩ :=
          ih (onBlockStart 0 st parents type test).1 hst1' (hinvf hi) hfin
        refine ⟨ih1, ?_, ?_⟩
        · intro id
          rw [ih2 id, hk, startIds_cons_start]
          simp only [List.mem_cons]
          constructor
          · rintro (hmk | hmr)
            · exact Or.inl hmk
            · exact Or.inr (Or.inr hmr)
          · rintro (hmk | rfl | hmr)
            · exact Or.inl hmk
            · exact Or.inl hIDk
            · exact Or.inr hmr
        · rw [List.zip_cons_cons, List.filterMap_cons, ho]
          simp only [newIdOfPair]
          rw [ih3, hk, startIds_cons_start, firstOcc_cons_of_mem _ hIDk]

/-- C4 (counterexample): the claim asks for exactly one tracker entry per
distinct `parents` sequence; processing a well-formed stream whose two
`blockStart` events carry the distinct sequences `["x y"]` and
`["x", "y"]` leaves a single tracker entry, because both sequences join
to the same identity. -/
theorem c4_counterexample_distinct_parents_one_entry :
    wellFormed [Event.blockStart ["x y"] "test" none,
      Event.blockStart ["x", "y"] "test" none] = true ∧
    (runEvents (some 9) [Event.blockStart ["x y"] "test" none,
      Event.blockStart ["x", "y"] "test" none]).blockTrackers.length = 1 ∧
    (["x y"] : List String) ≠ ["x", "y"] :=
  ⟨by decide, by decide, by decide⟩

/-- C4 (amended): for every well-formed event stream processed without
bail-out, the tracker registry contains exactly one entry per distinct
block identity (joined `parents` string) observed in `blockStart` events —
its keys are distinct and are exactly the observed identities — and
`setBlock` reports newly-created exactly once per distinct identity, at
its first observation: the reported ids are exactly the first occurrences
of the observed identities, in order. -/
theorem c4_registry_one_entry_per_identity :
    ∀ (maxErrors : Option Nat) (evs : List Event),
      wellFormed evs = true →
      (runEvents maxErrors evs).halted = none →
      (keysOf (runEvents maxErrors evs)).Nodup ∧
      (∀ id, id ∈ keysOf (runEvents maxErrors evs) ↔ id ∈ startIds evs) ∧
      newlyCreatedIds maxErrors evs = firstOcc [] (startIds evs) ∧
      (firstOcc [] (startIds evs)).Nodup ∧
      (∀ id, id ∈ firstOcc [] (startIds evs) ↔ id ∈ startIds evs) := by
  intro maxErrors evs _ hfin
  have hinv0 : RegistryInv initialState := by
    refine ⟨List.nodup_nil, ?_, ?_⟩
    · intro p hp
      simp [initialState] at hp
    · intro b hb
      simp [initialState] at hb
  have hfin' : (runT maxErrors initialState evs).1.halted = none := hfin
  obtain ⟨h1, h2, h3⟩ := runT_registry maxErrors evs initialState rfl hinv0 hfin'
  have hkeys0 : keysOf initialState = [] := rfl
  refine ⟨h1.1, ?_, ?_, firstOcc_nodup _ _, ?_⟩
  · intro id
    show id ∈ keysOf (runT maxErrors initialState evs).1 ↔ _
    rw [h2 id, hkeys0]
    simp
  · show (evs.zip (runT maxErrors initialState evs).2).filterMap newIdOfPair = _
    rw [h3, hkeys0]
  · intro id
    rw [mem_firstOcc]
    simp

/-- C4 (witness). -/
theorem c4_registry_witness :
    wellFormed [Event.blockStart ["a"] "before" none,
      Event.blockComplete ["a"] "before" none,
      Event.blockStart ["b"] "test" (some "t"),
      Event.blockStart ["a"] "test" none] = true ∧
    newlyCreatedIds (some 3) [Event.blockStart ["a"] "before" none,
      Event.blockComplete ["a"] "before" none,
      Event.blockStart ["b"] "test" (some "t"),
      Event.blockStart ["a"] "test" none] =
      firstOcc [] (startIds [Event.blockStart ["a"] "before" none,
        Event.blockComplete ["a"] "before" none,
        Event.blockStart ["b"] "test" (some "t"),
        Event.blockStart ["a"] "test" none]) :=
  ⟨by decide,
    (c4_registry_one_entry_per_identity (some 3)
      [Event.blockStart ["a"] "before" none,
        Event.blockComplete ["a"] "before" none,
        Event.blockStart ["b"] "test" (some "t"),
        Event.blockStart ["a"] "test" none]
      (by decide) (by decide)).2.2.1⟩

theorem go_data (l : List String) :
    ∀ acc : String,
      (String.intercalate.go acc " " l).data = acc.data ++ sepJoin l := by
  induction l with
  | nil => intro acc; simp [String.intercalate.go, sepJoin]
  | cons a as ih =>
    intro acc
    simp only [String.intercalate.go, sepJoin, ih]
    simp [List.append_assoc]

theorem blockId_cons_data (a : String) (as : List String) :
    (blockId (a :: as)).data = a.data ++ sepJoin as := by
  unfold blockId String.intercalate
  exact go_data as a

theorem space_free_append_inj (u : List Char) :
    ∀ (u' v v' : List Char), ' ' ∉ u → ' ' ∉ u' →
      (v = [] ∨ ∃ w, v = ' ' :: w) → (v' = [] ∨ ∃ w, v' = ' ' :: w) →
      u ++ v = u' ++ v' → u = u' ∧ v = v' := by
  induction u with
  | nil =>
    intro u' v v' _ hu' hv hv' h
    cases u' with
    | nil => exact ⟨rfl, h⟩
    | cons c u'' =>
      exfalso
      simp only [List.nil_append] at h
      rcases hv with rfl | ⟨w, rfl⟩
      · exact absurd h.symm (by simp)
      · rw [List.cons_append] at h
        have hc : ' ' = c := by
          have := congrArg (fun l => l.head?) h
          simpa using this
        exact hu' (hc ▸ List.mem_cons_self c u'')
  | cons c u₀ ih =>
    intro u' v v' hu hu' hv hv' h
    cases u' with
    | nil =>
      exfalso
      simp only [List.nil_append] at h
      rcases hv' with rfl | ⟨w, rfl⟩
      · exact absurd h (by simp)
      · rw [List.cons_append] at h
        have hc : c = ' ' := by
          have := congrArg (fun l => l.head?) h
          simpa using this
        exact hu (hc ▸ List.mem_cons_self c u₀)
    | cons c' u₀' =>
      rw [List.cons_append, List.cons_append] at h
      have hc : c = c' := by
        have := congrArg (fun l => l.head?) h
        simpa using this
      subst hc
      have htail : u₀ ++ v = u₀' ++ v' := by
        have := congrArg (fun l => l.tail) h
        simpa using this
      have := ih u₀' v v' (fun hm => hu (List.mem_cons_of_mem c hm))
        (fun hm => hu' (List.mem_cons_of_mem c hm)) hv hv' htail
      exact ⟨by rw [this.1], this.2⟩

theorem sepJoin_shape (as : List String) :
    sepJoin as = [] ∨ ∃ w, sepJoin as = ' ' :: w := by
  cases as with
  | nil => left; rfl
  | cons a t => right; exact ⟨a.data ++ sepJoin t, rfl⟩

theorem goodSeg_spec {s : String} (h : goodSeg s = true) :
    s.data ≠ [] ∧ ' ' ∉ s.data := by
  unfold goodSeg at h
  rw [Bool.and_eq_true] at h
  constructor
  · intro hd
    have hs : s = "" := data_inj (by simpa using hd)
    subst hs
    simp at h
  · intro hm
    have hc : s.data.contains ' ' = true := by
      rw [List.contains_iff_exists_mem_beq]
      exact ⟨' ', hm, by simp⟩
    rw [hc] at h
    simp at h

theorem goodSegs_cons {a : String} {as : List String}
    (h : goodSegs (a :: as) = true) : goodSeg a = true ∧ goodSegs as = true := by
  unfold goodSegs at *
  simpa using h

theorem sepJoin_inj (as : List String) :
    ∀ bs : List String, goodSegs as = true → goodSegs bs = true →
      sepJoin as = sepJoin bs → as = bs := by
  induction as with
  | nil =>
    intro bs _ _ h
    cases bs with
    | nil => rfl
    | cons b t => exact absurd h.symm (by simp [sepJoin])
  | cons a as ih =>
    intro bs hga hgb h
    cases bs with
    | nil => exact absurd h (by simp [sepJoin])
    | cons b bs =>
      obtain ⟨ha, has⟩ := goodSegs_cons hga
      obtain ⟨hb, hbs⟩ := goodSegs_cons hgb
      simp only [sepJoin, List.cons.injEq, true_and] at h
      have hkey := space_free_append_inj a.data b.data (sepJoin as) (sepJoin bs)
        (goodSeg_spec ha).2 (goodSeg_spec hb).2 (sepJoin_shape as)
        (sepJoin_shape bs) h
      have hab : a = b := data_inj hkey.1
      have hrest : as = bs := ih bs has hbs hkey.2
      rw [hab, hrest]

/-- C3 (counterexample): the claim says two events map to the same block
identity exactly when their `parents` sequences are element-wise equal;
but the identity is `parents.join(' ')`, so the distinct sequences
`["a b"]` and `["a", "b"]` collide on the same identity `a b`. -/
theorem c3_counterexample_join_collision :
    blockId ["a b"] = blockId ["a", "b"] ∧
    (["a b"] : List String) ≠ ["a", "b"] := by
  constructor
  · rfl
  · decide

/-- C3 (amended): the block identity is the `parents` sequence joined by a
single space and the order of segments matters; element-wise equal
`parents` always map to the same identity, and the converse — equal
identities only for element-wise equal sequences — holds whenever every
segment is nonempty and contains no space (without that proviso distinct
sequences can collide). -/
theorem c3_block_identity :
    ∀ (p q : List String), goodSegs p = true → goodSegs q = true →
      (blockId p = blockId q ↔ p = q) := by
  intro p q hp hq
  constructor
  · intro h
    have hd := congrArg String.data h
    cases p with
    | nil =>
      cases q with
      | nil => rfl
      | cons b bs =>
        exfalso
        rw [blockId_cons_data] at hd
        have hb := (goodSeg_spec (goodSegs_cons hq).1).1
        have : ([] : List Char) = b.data ++ sepJoin bs := hd
        rcases List.append_eq_nil.mp this.symm with ⟨hb0, -⟩
        exact hb hb0
    | cons a as =>
      cases q with
      | nil =>
        exfalso
        rw [blockId_cons_data] at hd
        have ha := (goodSeg_spec (goodSegs_cons hp).1).1
        have : a.data ++ sepJoin as = ([] : List Char) := hd
        rcases List.append_eq_nil.mp this with ⟨ha0, -⟩
        exact ha ha0
      | cons b bs =>
        rw [blockId_cons_data, blockId_cons_data] at hd
        obtain ⟨ha, has⟩ := goodSegs_cons hp
        obtain ⟨hb, hbs⟩ := goodSegs_cons hq
        have hkey := space_free_append_inj a.data b.data (sepJoin as)
          (sepJoin bs) (goodSeg_spec ha).2 (goodSeg_spec hb).2
          (sepJoin_shape as) (sepJoin_shape bs) hd
        rw [data_inj hkey.1, sepJoin_inj as bs has hbs hkey.2]
  · intro h
    rw [h]

/-- C3 (witness). -/
theorem c3_block_identity_witness :
    goodSegs ["a", "b"] = true ∧
    (blockId ["a", "b"] = blockId ["b", "a"] ↔
      (["a", "b"] : List String) = ["b", "a"]) :=
  ⟨by decide, c3_block_identity ["a", "b"] ["b", "a"] (by decide) (by decide)⟩

/-- C1 (counterexample): the claim says the bail-out decision is true
exactly when the captured-error count is strictly greater than
`maxErrors`; the handler in `src/unnamed/part_000` (and in the last
revision of `src/index.js`) tests `errorCount >= maxErrors`, so with
`maxErrors = 1` a single captured error already bails out although
`1 > 1` is false. -/
theorem c1_counterexample_strict_gt :
    shouldBailOut 1 (some 1) = true ∧ ¬ (1 > 1) := by decide

/-- C1 (amended): the bail-out decision is true iff the captured-error
count is greater than or equal to `maxErrors`; with `maxErrors = 0` the
very first captured error triggers bail-out; with an unbounded
`maxErrors` (`Infinity`) bail-out never triggers; and the `error` handler
halts the run with exit status 1 exactly when this decision is true for
the incremented counter. -/
theorem c1_bailout_ge_threshold :
    (∀ (total m : Nat), shouldBailOut total (some m) = true ↔ m ≤ total) ∧
    (∀ total : Nat, shouldBailOut total none = false) ∧
    shouldBailOut 1 (some 0) = true ∧
    (∀ (maxErrors : Option Nat) (st : RunState) (err : ErrObj),
      st.halted = none →
      ((stepG maxErrors 0 st (Event.error err)).1.halted = some 1 ↔
        shouldBailOut (st.errorCount + 1) maxErrors = true)) := by
  refine ⟨fun total m => by simp [shouldBailOut], fun total => rfl, rfl, ?_⟩
  intro maxErrors st err h
  simp only [stepG, h, Option.isSome_none, Bool.false_eq_true, if_false,
    stepT, onError]
  by_cases hb : shouldBailOut (st.errorCount + 1) maxErrors = true
  · simp [hb]
  · simp only [Bool.not_eq_true] at hb
    simp [hb, h]

/-- C1 (witness). -/
theorem c1_bailout_ge_threshold_witness :
    (stepG (some 2) 0 initialState (Event.error ⟨none, none, none, "e"⟩)).1.halted
        = some 1 ↔
      shouldBailOut (initialState.errorCount + 1) (some 2) = true :=
  c1_bailout_ge_threshold.2.2.2 (some 2) initialState ⟨none, none, none, "e"⟩ rfl

/-- C7: once a hook's timeout has fired, any later invocation of the
completion signal — with or without an error value — leaves the hook's
settlement state entirely unchanged: no second failure or success is
recorded and no counter changes again.  (Modelled from the spec, §4.4:
the timeout race is not present under `src/`.) -/
theorem c7_late_completion_noop :
    ∀ (s : HookSettle) (err : Option String),
      invokeDone err (fireTimeout s) = fireTimeout s ∧
      (fireTimeout s).settled = true := by
  intro s err
  unfold fireTimeout invokeDone
  by_cases h : s.settled <;> simp [h]

/-- C10: when zero test files were loaded, the runner does not start the
engine (the outcome is never `runEngine`) and instead exits with status 0
after the `No test files found` notice listing the searched paths; the
engine is started exactly when at least one test file was loaded. -/
theorem c10_no_test_files_exit_zero :
    ∀ (testFileLoadCount : Nat) (paths : List String),
      (afterLoad testFileLoadCount paths = LoadOutcome.runEngine ↔
        0 < testFileLoadCount) ∧
      afterLoad 0 paths =
        LoadOutcome.exitNoFiles ("No test files found in paths:" :: paths) 0 := by
  intro c paths
  constructor
  · unfold afterLoad
    by_cases h : c > 0 <;> simp [h]
  · rfl

/-- C6 (counterexample): the teardown path of the last revision's
`t.on(end)` handler in `src/index.js` starts every teardown hook inside
`teardowns.map((teardown) => teardown())` before awaiting them together
with `Promise.all`; already with two asynchronous hooks both are in
flight at once, so the hooks do not execute strictly sequentially. -/
theorem c6_counterexample_concurrent_hooks :
    ¬ sequentialTrace (promiseAllTrace 2 [0, 1]) := by
  unfold sequentialTrace
  decide

theorem maxInFlightAux_finishes (fo : List Nat) :
    ∀ (cur m : Nat), maxInFlightAux cur m (fo.map HookEv.finish) = m := by
  induction fo with
  | nil => intro cur m; rfl
  | cons a t ih => intro cur m; simpa [maxInFlightAux] using ih (cur - 1) m

theorem startsOf_append (t u : List HookEv) :
    startsOf (t ++ u) = startsOf t ++ startsOf u := by
  unfold startsOf
  exact List.filterMap_append t u _

theorem startsOf_map_start (l : List Nat) :
    startsOf (l.map HookEv.start) = l := by
  unfold startsOf
  induction l with
  | nil => rfl
  | cons a t ih => simp only [List.map_cons, List.filterMap_cons]; rw [ih]

theorem startsOf_map_finish (l : List Nat) :
    startsOf (l.map HookEv.finish) = [] := by
  unfold startsOf
  induction l with
  | nil => rfl
  | cons a t ih => simp only [List.map_cons, List.filterMap_cons]; rw [ih]

theorem maxInFlightAux_starts (l : List Nat) (fo : List Nat) :
    ∀ (cur m : Nat),
      maxInFlightAux cur m (l.map HookEv.start ++ fo.map HookEv.finish) =
        if l.isEmpty then m else max m (cur + l.length) := by
  induction l with
  | nil => intro cur m; simpa using maxInFlightAux_finishes fo cur m
  | cons a t ih =>
    intro cur m
    simp only [List.map_cons, List.cons_append, maxInFlightAux, List.append_eq]
    rw [ih (cur + 1) (max m (cur + 1))]
    cases t with
    | nil => simp
    | cons b t' =>
      simp only [List.isEmpty_cons, Bool.false_eq_true, if_false,
        List.length_cons]
      omega

/-- C6 (amended): the teardown hooks at the cited `Promise.all` site are
invoked synchronously in registration order — the invocation order is
exactly `0, 1, …, n-1` — but they are awaited together, not sequentially:
for every settlement order, all `n` hooks are in flight simultaneously
once the invocation loop has run. -/
theorem c6_promise_all_hooks :
    ∀ (n : Nat) (finishOrder : List Nat),
      maxInFlight (promiseAllTrace n finishOrder) = n ∧
      startsOf (promiseAllTrace n finishOrder) = List.range n := by
  intro n fo
  constructor
  · unfold maxInFlight promiseAllTrace
    rw [maxInFlightAux_starts]
    cases n with
    | zero => simp
    | succ k => simp [List.isEmpty_iff, List.range_succ]
  · unfold promiseAllTrace
    rw [startsOf_append, startsOf_map_start, startsOf_map_finish,
      List.append_nil]

/-- C5 (counterexample): for an error that carries no stack, `reportError`
in `src/unnamed/part_000` renders an empty stack-line list — the written
stack text is the trim of the empty string — instead of the string form
of the error, which here is the nonempty `Error: boom`. -/
theorem c5_counterexample_no_stack_fallback :
    reportErrorStack 5 ⟨none, none, none, "Error: boom"⟩ = [] ∧
    renderedStackText 5 ⟨none, none, none, "Error: boom"⟩ = ("" : String).trim ∧
    ("Error: boom" : String) ≠ "" := by
  refine ⟨rfl, rfl, by decide⟩

/-- C5 (amended): for every captured error whose stack splits into N
lines, the truncated stack kept by `reportError` has `min(N, K)` lines
and is exactly the first `K` lines of the original stack in original
order (the displayed text is this list joined and whitespace-trimmed);
when the error carries no stack, `reportError` of `src/unnamed/part_000`
renders an empty stack-line list, while `reportErrors` of the first
revision in `src/index.js` falls back to the string form of the error. -/
theorem c5_stack_truncation :
    (∀ (maxStack : Nat) (lines : List String),
      truncateStack maxStack lines = lines.take maxStack ∧
      (truncateStack maxStack lines).length = min lines.length maxStack) ∧
    (∀ (maxStack : Nat) (err : ErrObj) (s : String),
      err.stack = some s → s ≠ "" →
      reportErrorStack maxStack err = (s.splitOn "\n").take maxStack) ∧
    (∀ (maxStack : Nat) (err : ErrObj),
      renderedStackText maxStack err =
        (String.intercalate "\n" (reportErrorStack maxStack err)).trim) ∧
    (∀ (maxStack : Nat) (err : ErrObj), err.stack = none →
      reportErrorStack maxStack err = [] ∧
      rev1ReportedText maxStack err = err.strForm) := by
  have htr : ∀ (maxStack : Nat) (lines : List String),
      truncateStack maxStack lines = lines.take maxStack := by
    intro maxStack lines
    unfold truncateStack
    by_cases h : lines.length > maxStack
    · simp [h]
    · simp only [h, if_false]
      rw [List.take_of_length_le (by omega)]
  refine ⟨fun maxStack lines => ⟨htr maxStack lines, ?_⟩, ?_, ?_, ?_⟩
  · rw [htr, List.length_take, Nat.min_comm]
  · intro maxStack err s hs hne
    rw [show reportErrorStack maxStack err =
          truncateStack maxStack (splitStack err.stack) from rfl,
      htr, hs]
    simp only [splitStack]
    rw [if_neg (by simpa using hne)]
  · intro maxStack err
    rfl
  · intro maxStack err h
    refine ⟨?_, ?_⟩
    · rw [show reportErrorStack maxStack err =
            truncateStack maxStack (splitStack err.stack) from rfl, h]
      rfl
    · unfold rev1ReportedText
      rw [h]

/-- C5 (witness). -/
theorem c5_stack_truncation_witness :
    truncateStack 2 ["a", "b", "c"] = (["a", "b", "c"] : List String).take 2 ∧
    rev1ReportedText 3 ⟨none, none, none, "Error: boom"⟩ = "Error: boom" := by
  constructor
  · exact (c5_stack_truncation.1 2 ["a", "b", "c"]).1
  · exact (c5_stack_truncation.2.2.2 3 ⟨none, none, none, "Error: boom"⟩ rfl).2

/-- C8 (counterexample): a `blockStart` event with an empty `parents`
sequence is tracked — processing it from the initial state creates a
tracker entry (registered under the empty-string identity), where the
claim says no tracker entry must be created. -/
theorem c8_counterexample_empty_parents_tracked :
    (runEvents (some 5) [Event.blockStart [] "test" none]).blockTrackers.length
      = 1 := by decide

/-- C8 (amended): an event with an empty `parents` sequence has the
empty-string identity and IS tracked — `setBlock` always leaves a tracker
registered under `""` for it — while an error carrying an empty `parents`
sequence and no test name is still reported, labeled with the sentinel
`Unexpected Testing Error` instead of a block identity. -/
theorem c8_empty_parents :
    ∀ (st : RunState) (type : String) (test stck : Option String) (sf : String),
      blockId [] = "" ∧
      ((setBlock st [] type test).1.blockTrackers.lookup "").isSome = true ∧
      nameString ⟨stck, none, some [], sf⟩ = "Unexpected Testing Error" := by
  intro st type test stck sf
  refine ⟨rfl, ?_, rfl⟩
  show ((setBlock st [] type test).1.blockTrackers.lookup "").isSome = true
  unfold setBlock
  simp only [show blockId [] = "" from rfl]
  cases h : st.blockTrackers.lookup "" with
  | some b => simp [h]
  | none => simp [h, List.lookup_cons]

end KixxTestNode
